import Mathlib

/-!
Shallow embedding of `src/02_llm_router/llm_router.py` (class `LLMRouter`
and its data model), with theorems checking the routing spec against it.

Modelling conventions:
* Python floats (`temperature`, costs, latencies) become `ℚ`.
* Python exceptions become `Except`: a backend invocation is a function
  `Query → Except String Response` (the `String` is `str(e)`), and
  `LLMRouter.query` returns an `Except RouteError Response`.  The two
  `RuntimeError`s raised by `LLMRouter.query` carry distinct messages
  ("All providers failed: {e}" vs "No providers available"); they are the
  two constructors of `RouteError`.
* The md5 fingerprint of `Query.hash` is modelled by the content string
  `f"{text}_{temperature}_{max_tokens}"` that is fed to md5: md5 is a
  fixed function of that string, so equal contents give equal digests.
* The `self.cache` dict is an association list with first-match lookup;
  insertion conses in front, which is observationally Python's
  `dict.__setitem__` under that lookup.
* The mutation of `self.metrics` is explicit state passing on
  `RouterState`; in addition the embedding returns the ordered list of
  providers whose `query` method was invoked, so that "never invokes"
  claims are directly about the code's observable calls.
* Wall-clock fields (`timestamp`, `last_checked`, `avg_latency_ms`) and
  the thread lock are not part of any claim and are omitted.
-/

/-- The `ProviderName` enum of the source. -/
inductive ProviderName
  | gemini
  | claude
  | openai
deriving DecidableEq, Repr

/-- The `ProviderStatus` enum of the source. -/
inductive ProviderStatus
  | healthy
  | degraded
  | unhealthy
deriving DecidableEq, Repr

/-- The `ProviderMetrics` dataclass (counters, cost, status, last error). -/
structure ProviderMetrics where
  status : ProviderStatus := ProviderStatus.healthy
  requests_total : Nat := 0
  requests_success : Nat := 0
  requests_failed : Nat := 0
  total_cost : ℚ := 0
  last_error : Option String := none
deriving DecidableEq, Repr

/-- `ProviderMetrics.success_rate`: `1.0` when no requests, else
`requests_success / requests_total`. -/
def ProviderMetrics.success_rate (m : ProviderMetrics) : ℚ :=
  if m.requests_total = 0 then 1 else (m.requests_success : ℚ) / (m.requests_total : ℚ)

/-- `ProviderMetrics.availability`: `0` when unhealthy, `1/2` when degraded,
else the success rate. -/
def ProviderMetrics.availability (m : ProviderMetrics) : ℚ :=
  if m.status = ProviderStatus.unhealthy then 0
  else if m.status = ProviderStatus.degraded then 1 / 2
  else m.success_rate

/-- The `Query` dataclass. -/
structure Query where
  text : String
  model : Option String := none
  temperature : ℚ := 7 / 10
  max_tokens : Nat := 2000
  system_prompt : Option String := none
deriving DecidableEq, Repr

/-- `Query.hash`: the deduplication fingerprint.  The source computes
`md5(f"{text}_{temperature}_{max_tokens}")`; we model the digest by the
digested content string (md5 is a fixed function of it). -/
def Query.hash (q : Query) : String :=
  q.text ++ "_" ++ toString q.temperature ++ "_" ++ toString q.max_tokens

/-- The `Response` dataclass (minus the wall-clock timestamp). -/
structure Response where
  text : String
  provider : ProviderName
  tokens_used : Nat
  cost : ℚ
  latency_ms : ℚ
deriving DecidableEq, Repr

/-- The two `RuntimeError`s raised by `LLMRouter.query`, distinguished by
their messages: `allFailed e` is `"All providers failed: {e}"` and
`noProviders` is `"No providers available"`. -/
inductive RouteError
  | allFailed (err : String)
  | noProviders
deriving DecidableEq, Repr

/-- First-match lookup in the cache association list (`dict.get`). -/
def cacheLookup (cache : List (String × Response)) (k : String) : Option Response :=
  match cache with
  | [] => none
  | (k2, v) :: rest => if k2 = k then some v else cacheLookup rest k

/-- Cache insertion (`self.cache[key] = response`): under first-match
lookup, consing in front realises the dict overwrite. -/
def cacheInsert (cache : List (String × Response)) (k : String) (v : Response) :
    List (String × Response) :=
  (k, v) :: cache

/-- The router's mutable state: the `self.providers` map (each backend's
`query` method, which may raise), the `self.metrics` map and the
`self.cache` dict. -/
structure RouterState where
  backends : ProviderName → Query → Except String Response
  metrics : ProviderName → ProviderMetrics
  cache : List (String × Response)

/-- The metrics update of the success branch of `LLMRouter.query`
(lines incrementing `requests_total`, `requests_success` and adding
`response.cost`; `last_error` is not touched there). -/
def recordSuccess (m : ProviderMetrics) (cost : ℚ) : ProviderMetrics :=
  { m with
    requests_total := m.requests_total + 1
    requests_success := m.requests_success + 1
    total_cost := m.total_cost + cost }

/-- The metrics update of the failure branch of `LLMRouter.query`
(increments `requests_failed` and sets `last_error`; the source does not
touch `requests_total` there). -/
def recordFailure (m : ProviderMetrics) (err : String) : ProviderMetrics :=
  { m with
    requests_failed := m.requests_failed + 1
    last_error := some err }

/-- `providers[-1]`: the last element of `a :: l`. -/
def lastOf {α : Type} (a : α) : List α → α
  | [] => a
  | b :: l => lastOf b l

/-- Result of one `LLMRouter.query` call: the state after the call, the
ordered list of providers whose backend `query` was invoked, and the
returned response or raised error. -/
structure RouteResult where
  state : RouterState
  invoked : List ProviderName
  result : Except RouteError Response

/-- State change of the success branch of `LLMRouter.query`: update the
succeeding provider's metrics and cache the response. -/
def successUpdate (st : RouterState) (p : ProviderName) (q : Query)
    (resp : Response) : RouterState :=
  { st with
    metrics := fun n =>
      if n = p then recordSuccess (st.metrics n) resp.cost else st.metrics n
    cache := cacheInsert st.cache q.hash resp }

/-- State change of the failure branch of `LLMRouter.query`: update the
failing provider's metrics (the cache is untouched). -/
def failUpdate (st : RouterState) (p : ProviderName) (e : String) : RouterState :=
  { st with
    metrics := fun n =>
      if n = p then recordFailure (st.metrics n) e else st.metrics n }

/-- The `for provider_name in providers:` loop of `LLMRouter.query`.
`lastP` is `providers[-1]` of the original list; on a failure of a
provider equal to `lastP` the loop raises `allFailed` with that error,
otherwise it continues.  Falling off the loop reaches the source's
final `raise RuntimeError("No providers available")`. -/
def routeLoop (q : Query) (lastP : ProviderName) :
    List ProviderName → RouterState → RouteResult
  | [], st => ⟨st, [], Except.error RouteError.noProviders⟩
  | p :: rest, st =>
    match st.backends p q with
    | Except.ok resp =>
      ⟨successUpdate st p q resp, [p], Except.ok resp⟩
    | Except.error e =>
      let st1 := failUpdate st p e
      if p = lastP then
        ⟨st1, [p], Except.error (RouteError.allFailed e)⟩
      else
        let r := routeLoop q lastP rest st1
        ⟨r.state, p :: r.invoked, r.result⟩

/-- The candidate-trying portion of `LLMRouter.query`: run the failover
loop on a non-empty list; an empty list skips the loop and reaches the
source's final `raise RuntimeError("No providers available")`. -/
def routeCandidates (st : RouterState) (q : Query) :
    List ProviderName → RouteResult
  | [] => ⟨st, [], Except.error RouteError.noProviders⟩
  | p :: rest => routeLoop q (lastOf p rest) (p :: rest) st

/-- `LLMRouter.query`: check the cache when `use_cache`, then try the
candidate list in order. -/
def LLMRouter.query (st : RouterState) (q : Query) (providers : List ProviderName)
    (use_cache : Bool) : RouteResult :=
  if use_cache then
    match cacheLookup st.cache q.hash with
    | some r => ⟨st, [], Except.ok r⟩
    | none => routeCandidates st q providers
  else routeCandidates st q providers

/-- `LLMRouter._get_default_providers`: cost-ascending default order. -/
def LLMRouter.get_default_providers : List ProviderName :=
  [ProviderName.gemini, ProviderName.claude, ProviderName.openai]

/-- `LLMRouter.health_check`: one sweep over the given backends' health
probes (each probe may return a `Bool` or raise).  Returns the health
dict (as an association list in sweep order) and the updated metrics
map: probe `True` sets status healthy, probe `False` or a probe
exception sets status unhealthy, and an exception never stops the
sweep. -/
def LLMRouter.health_check :
    List (ProviderName × Except String Bool) → (ProviderName → ProviderMetrics) →
      List (ProviderName × Bool) × (ProviderName → ProviderMetrics)
  | [], ms => ([], ms)
  | (p, probe) :: rest, ms =>
    let ok : Bool :=
      match probe with
      | Except.ok b => b
      | Except.error _ => false
    let newStatus : ProviderStatus :=
      if ok then ProviderStatus.healthy else ProviderStatus.unhealthy
    let ms1 : ProviderName → ProviderMetrics := fun n =>
      if n = p then { ms n with status := newStatus } else ms n
    let res := LLMRouter.health_check rest ms1
    ((p, ok) :: res.1, res.2)

/-- A freshly constructed router state (no persisted metrics, empty
cache), as built by `LLMRouter.__init__` when no metrics file exists. -/
def initState (backends : ProviderName → Query → Except String Response) : RouterState :=
  { backends := backends, metrics := fun _ => {}, cache := [] }

/-- States reachable from a fresh router by any sequence of
`LLMRouter.query` calls. -/
inductive Reachable : RouterState → Prop
  | init (backends : ProviderName → Query → Except String Response) :
      Reachable (initState backends)
  | step (st : RouterState) (q : Query) (ps : List ProviderName) (uc : Bool) :
      Reachable st → Reachable (LLMRouter.query st q ps uc).state

/-! Concrete sample data for evaluating the embedding. -/

/-- A sample query (all dataclass defaults apart from the text). -/
def qW : Query :=
  { text := "hello" }

/-- The same query text with a different system instruction. -/
def qWsys : Query :=
  { text := "hello", system_prompt := some "terse answers" }

/-- A sample successful response from the gemini backend. -/
def respW : Response :=
  { text := "ok", provider := ProviderName.gemini, tokens_used := 2,
    cost := 1 / 100, latency_ms := 150 }

/-- Backends where gemini succeeds and the others raise. -/
def bkMix : ProviderName → Query → Except String Response := fun p _ =>
  match p with
  | ProviderName.gemini => Except.ok respW
  | ProviderName.claude => Except.error "claude down"
  | ProviderName.openai => Except.error "openai down"

/-- Backends where every provider raises. -/
def bkAllFail : ProviderName → Query → Except String Response := fun p _ =>
  match p with
  | ProviderName.gemini => Except.error "gemini down"
  | ProviderName.claude => Except.error "claude down"
  | ProviderName.openai => Except.error "openai down"

/-- Fresh router whose gemini backend succeeds and others fail. -/
def stMix : RouterState :=
  initState bkMix

/-- Fresh router where every backend fails. -/
def stAllFail : RouterState :=
  initState bkAllFail

/-- Router whose cache already holds `respW` under `qW`'s fingerprint. -/
def stCached : RouterState :=
  { backends := bkAllFail, metrics := fun _ => {},
    cache := [(qW.hash, respW)] }

/-- Router where claude succeeds but its metrics still carry a
`last_error` from an earlier failure. -/
def stPrior : RouterState :=
  { backends := fun p _ =>
      match p with
      | ProviderName.claude => Except.ok respW
      | _ => Except.error "down"
    metrics := fun n =>
      if n = ProviderName.claude then { last_error := some "earlier failure" } else {}
    cache := [] }

/-! Helper lemmas. -/

theorem lastOf_mem {α : Type} (a : α) (l : List α) : lastOf a l ∈ a :: l := by
  induction l generalizing a with
  | nil => simp [lastOf]
  | cons b l ih =>
    rw [lastOf]
    exact List.mem_cons_of_mem a (ih b)

theorem lastOf_append {α : Type} (pre : List α) (p : α) (post : List α) :
    ∀ a, lastOf a (pre ++ p :: post) = lastOf p post := by
  induction pre with
  | nil =>
    intro a
    rw [List.nil_append, lastOf]
  | cons f pre ih =>
    intro a
    rw [List.cons_append, lastOf]
    exact ih f

theorem recordSuccess_status (m : ProviderMetrics) (c : ℚ) :
    (recordSuccess m c).status = m.status := rfl

theorem recordFailure_status (m : ProviderMetrics) (e : String) :
    (recordFailure m e).status = m.status := rfl

theorem successUpdate_backends (st : RouterState) (p : ProviderName) (q : Query)
    (resp : Response) : (successUpdate st p q resp).backends = st.backends := rfl

theorem failUpdate_backends (st : RouterState) (p : ProviderName) (e : String) :
    (failUpdate st p e).backends = st.backends := rfl

theorem failUpdate_cache (st : RouterState) (p : ProviderName) (e : String) :
    (failUpdate st p e).cache = st.cache := rfl

theorem successUpdate_metrics_self (st : RouterState) (p : ProviderName) (q : Query)
    (resp : Response) :
    (successUpdate st p q resp).metrics p = recordSuccess (st.metrics p) resp.cost := by
  simp [successUpdate]

theorem successUpdate_metrics_other (st : RouterState) (p : ProviderName) (q : Query)
    (resp : Response) (n : ProviderName) (h : n ≠ p) :
    (successUpdate st p q resp).metrics n = st.metrics n := by
  simp [successUpdate, h]

theorem failUpdate_metrics_self (st : RouterState) (p : ProviderName) (e : String) :
    (failUpdate st p e).metrics p = recordFailure (st.metrics p) e := by
  simp [failUpdate]

theorem failUpdate_metrics_other (st : RouterState) (p : ProviderName) (e : String)
    (n : ProviderName) (h : n ≠ p) :
    (failUpdate st p e).metrics n = st.metrics n := by
  simp [failUpdate, h]

theorem routeLoop_cons_ok (q : Query) (lastP p : ProviderName)
    (rest : List ProviderName) (st : RouterState) (resp : Response)
    (h : st.backends p q = Except.ok resp) :
    routeLoop q lastP (p :: rest) st =
      ⟨successUpdate st p q resp, [p], Except.ok resp⟩ := by
  simp [routeLoop, h]

theorem routeLoop_cons_fail_last (q : Query) (lastP p : ProviderName)
    (rest : List ProviderName) (st : RouterState) (e : String)
    (h : st.backends p q = Except.error e) (hl : p = lastP) :
    routeLoop q lastP (p :: rest) st =
      ⟨failUpdate st p e, [p], Except.error (RouteError.allFailed e)⟩ := by
  subst hl
  simp [routeLoop, h]

theorem routeLoop_cons_fail (q : Query) (lastP p : ProviderName)
    (rest : List ProviderName) (st : RouterState) (e : String)
    (h : st.backends p q = Except.error e) (hl : p ≠ lastP) :
    routeLoop q lastP (p :: rest) st =
      ⟨(routeLoop q lastP rest (failUpdate st p e)).state,
       p :: (routeLoop q lastP rest (failUpdate st p e)).invoked,
       (routeLoop q lastP rest (failUpdate st p e)).result⟩ := by
  simp [routeLoop, h, hl]

theorem routeLoop_status (q : Query) (lastP : ProviderName) :
    ∀ (l : List ProviderName) (st : RouterState) (n : ProviderName),
      ((routeLoop q lastP l st).state.metrics n).status = (st.metrics n).status := by
  intro l
  induction l with
  | nil =>
    intro st n
    rfl
  | cons p rest ih =>
    intro st n
    cases hb : st.backends p q with
    | ok resp =>
      rw [routeLoop_cons_ok q lastP p rest st resp hb]
      by_cases hn : n = p
      · rw [hn, successUpdate_metrics_self, recordSuccess_status]
      · rw [successUpdate_metrics_other st p q resp n hn]
    | error e =>
      by_cases hp : p = lastP
      · rw [routeLoop_cons_fail_last q lastP p rest st e hb hp]
        by_cases hn : n = p
        · rw [hn, failUpdate_metrics_self, recordFailure_status]
        · rw [failUpdate_metrics_other st p e n hn]
      · rw [routeLoop_cons_fail q lastP p rest st e hb hp]
        rw [ih]
        by_cases hn : n = p
        · rw [hn, failUpdate_metrics_self, recordFailure_status]
        · rw [failUpdate_metrics_other st p e n hn]

theorem routeCandidates_status (st : RouterState) (q : Query)
    (ps : List ProviderName) (n : ProviderName) :
    ((routeCandidates st q ps).state.metrics n).status = (st.metrics n).status := by
  cases ps with
  | nil => rfl
  | cons p rest => exact routeLoop_status q (lastOf p rest) (p :: rest) st n

/-- C9: a `route` call never changes any provider's health status, no
matter which branches (cache hit, success, failures, exhaustion) it
takes; only `health_check` writes the status field. -/
theorem c9_route_preserves_status (st : RouterState) (q : Query)
    (ps : List ProviderName) (uc : Bool) (n : ProviderName) :
    ((LLMRouter.query st q ps uc).state.metrics n).status = (st.metrics n).status := by
  cases uc with
  | false => exact routeCandidates_status st q ps n
  | true =>
    cases hl : cacheLookup st.cache q.hash with
    | some r => simp [LLMRouter.query, hl]
    | none =>
      simpa [LLMRouter.query, hl] using routeCandidates_status st q ps n

/-- C4: with caching enabled, a query whose fingerprint is already cached
returns the cached response, invokes no backend, and leaves the whole
state (hence every provider's counters) unchanged. -/
theorem c4_cache_hit (st : RouterState) (q : Query) (ps : List ProviderName)
    (r : Response) (h : cacheLookup st.cache q.hash = some r) :
    LLMRouter.query st q ps true = ⟨st, [], Except.ok r⟩ := by
  simp [LLMRouter.query, h]

/-- C4 witness: the cache hit evaluated on a concrete cached router. -/
theorem c4_cache_hit_witness :
    LLMRouter.query stCached qW [ProviderName.gemini] true =
      ⟨stCached, [], Except.ok respW⟩ :=
  c4_cache_hit stCached qW [ProviderName.gemini] respW (by simp [stCached, cacheLookup])

/-- C6: on an empty candidate list (reached with caching off or on a
cache miss), `route` fails with the "no candidates" error without
invoking any backend or touching any metrics, and that error is distinct
from every "all candidates failed" error. -/
theorem c6_empty_candidates (st : RouterState) (q : Query) (uc : Bool)
    (hcache : uc = false ∨ cacheLookup st.cache q.hash = none) :
    LLMRouter.query st q [] uc = ⟨st, [], Except.error RouteError.noProviders⟩ ∧
      ∀ e, RouteError.noProviders ≠ RouteError.allFailed e := by
  refine ⟨?_, fun e h => RouteError.noConfusion h⟩
  rcases hcache with h | h
  · rw [h]
    rfl
  · cases uc with
    | false => rfl
    | true => simp [LLMRouter.query, h, routeCandidates]

/-- C6 witness: the empty candidate list evaluated on a concrete fresh
router. -/
theorem c6_empty_candidates_witness :
    LLMRouter.query stMix qW [] false =
        ⟨stMix, [], Except.error RouteError.noProviders⟩ ∧
      ∀ e, RouteError.noProviders ≠ RouteError.allFailed e :=
  c6_empty_candidates stMix qW false (Or.inl rfl)

theorem recordSuccess_success_count (m : ProviderMetrics) (c : ℚ) :
    (recordSuccess m c).requests_success = m.requests_success + 1 := rfl

theorem recordSuccess_total_count (m : ProviderMetrics) (c : ℚ) :
    (recordSuccess m c).requests_total = m.requests_total + 1 := rfl

theorem recordSuccess_failed_count (m : ProviderMetrics) (c : ℚ) :
    (recordSuccess m c).requests_failed = m.requests_failed := rfl

theorem recordSuccess_cost (m : ProviderMetrics) (c : ℚ) :
    (recordSuccess m c).total_cost = m.total_cost + c := rfl

theorem recordSuccess_last_error (m : ProviderMetrics) (c : ℚ) :
    (recordSuccess m c).last_error = m.last_error := rfl

theorem recordFailure_success_count (m : ProviderMetrics) (e : String) :
    (recordFailure m e).requests_success = m.requests_success := rfl

theorem recordFailure_total_count (m : ProviderMetrics) (e : String) :
    (recordFailure m e).requests_total = m.requests_total := rfl

theorem recordFailure_failed_count (m : ProviderMetrics) (e : String) :
    (recordFailure m e).requests_failed = m.requests_failed + 1 := rfl

theorem routeLoop_success (q : Query) (lastP p : ProviderName) (r : Response)
    (post : List ProviderName) :
    ∀ (pre : List ProviderName) (st : RouterState),
      (∀ f ∈ pre, (∃ e, st.backends f q = Except.error e) ∧ f ≠ lastP ∧ f ≠ p) →
      st.backends p q = Except.ok r →
      (routeLoop q lastP (pre ++ p :: post) st).result = Except.ok r ∧
      (routeLoop q lastP (pre ++ p :: post) st).invoked = pre ++ [p] ∧
      (routeLoop q lastP (pre ++ p :: post) st).state.cache =
        cacheInsert st.cache q.hash r ∧
      (routeLoop q lastP (pre ++ p :: post) st).state.metrics p =
        recordSuccess (st.metrics p) r.cost ∧
      (∀ n, n ≠ p →
        ((routeLoop q lastP (pre ++ p :: post) st).state.metrics n).requests_success =
            (st.metrics n).requests_success ∧
          ((routeLoop q lastP (pre ++ p :: post) st).state.metrics n).requests_total =
            (st.metrics n).requests_total) := by
  intro pre
  induction pre with
  | nil =>
    intro st _ hp
    rw [List.nil_append, routeLoop_cons_ok q lastP p post st r hp]
    refine ⟨rfl, rfl, rfl, successUpdate_metrics_self st p q r, ?_⟩
    intro n hn
    rw [successUpdate_metrics_other st p q r n hn]
    exact ⟨rfl, rfl⟩
  | cons f pre ih =>
    intro st hpre hp
    obtain ⟨⟨e, hfe⟩, hfl, hfp⟩ := hpre f (List.mem_cons_self f pre)
    rw [List.cons_append, routeLoop_cons_fail q lastP f (pre ++ p :: post) st e hfe hfl]
    obtain ⟨h1, h2, h3, h4, h5⟩ :=
      ih (failUpdate st f e) (fun g hg => hpre g (List.mem_cons_of_mem f hg)) hp
    have hpf : p ≠ f := fun h => hfp h.symm
    refine ⟨h1, ?_, ?_, ?_, ?_⟩
    · rw [RouteResult.invoked, h2, List.cons_append]
    · rw [RouteResult.state, h3, failUpdate_cache]
    · rw [RouteResult.state, h4, failUpdate_metrics_other st f e p hpf]
    · intro n hn
      obtain ⟨hs, ht⟩ := h5 n hn
      rw [RouteResult.state]
      constructor
      · rw [hs]
        by_cases hnf : n = f
        · rw [hnf, failUpdate_metrics_self, recordFailure_success_count]
        · rw [failUpdate_metrics_other st f e n hnf]
      · rw [ht]
        by_cases hnf : n = f
        · rw [hnf, failUpdate_metrics_self, recordFailure_total_count]
        · rw [failUpdate_metrics_other st f e n hnf]

theorem query_routeLoop (st : RouterState) (q : Query) (uc : Bool)
    (a : ProviderName) (l : List ProviderName)
    (hcache : uc = false ∨ cacheLookup st.cache q.hash = none) :
    LLMRouter.query st q (a :: l) uc = routeLoop q (lastOf a l) (a :: l) st := by
  rcases hcache with h | h
  · rw [h]
    rfl
  · cases uc with
    | false => rfl
    | true => simp [LLMRouter.query, h, routeCandidates]

theorem query_routeLoop_split (st : RouterState) (q : Query) (uc : Bool)
    (pre post : List ProviderName) (p : ProviderName)
    (hcache : uc = false ∨ cacheLookup st.cache q.hash = none) :
    LLMRouter.query st q (pre ++ p :: post) uc =
      routeLoop q (lastOf p post) (pre ++ p :: post) st := by
  cases pre with
  | nil =>
    rw [List.nil_append]
    exact query_routeLoop st q uc p post hcache
  | cons f pre2 =>
    rw [List.cons_append, query_routeLoop st q uc f (pre2 ++ p :: post) hcache,
      lastOf_append pre2 p post f]

/-- C1 (amended with a duplicate-free candidate list): on a cache miss,
`route` returns the response of the first non-failing candidate, invokes
exactly the failing prefix followed by that candidate (so nothing after
the first success), and records exactly one success, namely for that
candidate. -/
theorem c1_route_first_success (st : RouterState) (q : Query) (uc : Bool)
    (pre post : List ProviderName) (p : ProviderName) (r : Response)
    (hnodup : (pre ++ p :: post).Nodup)
    (hpre : ∀ f ∈ pre, ∃ e, st.backends f q = Except.error e)
    (hp : st.backends p q = Except.ok r)
    (hcache : uc = false ∨ cacheLookup st.cache q.hash = none) :
    (LLMRouter.query st q (pre ++ p :: post) uc).result = Except.ok r ∧
    (LLMRouter.query st q (pre ++ p :: post) uc).invoked = pre ++ [p] ∧
    ((LLMRouter.query st q (pre ++ p :: post) uc).state.metrics p).requests_success =
      (st.metrics p).requests_success + 1 ∧
    ∀ n, n ≠ p →
      ((LLMRouter.query st q (pre ++ p :: post) uc).state.metrics n).requests_success =
        (st.metrics n).requests_success := by
  rw [query_routeLoop_split st q uc pre post p hcache]
  have hdisj : List.Disjoint pre (p :: post) := (List.nodup_append.mp hnodup).2.2
  have hlast : lastOf p post ∈ p :: post := lastOf_mem p post
  have hcond : ∀ f ∈ pre,
      (∃ e, st.backends f q = Except.error e) ∧ f ≠ lastOf p post ∧ f ≠ p := by
    intro f hf
    refine ⟨hpre f hf, ?_, ?_⟩
    · intro hEq
      exact hdisj hf (hEq ▸ hlast)
    · intro hEq
      exact hdisj hf (hEq ▸ List.mem_cons_self p post)
  obtain ⟨h1, h2, h3, h4, h5⟩ := routeLoop_success q (lastOf p post) p r post pre st hcond hp
  refine ⟨h1, h2, ?_, ?_⟩
  · rw [h4, recordSuccess_success_count]
  · intro n hn
    exact (h5 n hn).1

/-- C1 witness: claude fails, gemini succeeds, openai untried. -/
theorem c1_route_first_success_witness :
    (LLMRouter.query stMix qW
        [ProviderName.claude, ProviderName.gemini, ProviderName.openai] false).result =
      Except.ok respW ∧
    (LLMRouter.query stMix qW
        [ProviderName.claude, ProviderName.gemini, ProviderName.openai] false).invoked =
      [ProviderName.claude, ProviderName.gemini] ∧
    ((LLMRouter.query stMix qW
        [ProviderName.claude, ProviderName.gemini, ProviderName.openai] false).state.metrics
          ProviderName.gemini).requests_success =
      (stMix.metrics ProviderName.gemini).requests_success + 1 ∧
    ∀ n, n ≠ ProviderName.gemini →
      ((LLMRouter.query stMix qW
          [ProviderName.claude, ProviderName.gemini, ProviderName.openai] false).state.metrics
            n).requests_success =
        (stMix.metrics n).requests_success :=
  c1_route_first_success stMix qW false [ProviderName.claude] [ProviderName.openai]
    ProviderName.gemini respW (by decide)
    (by
      intro f hf
      rw [List.mem_singleton] at hf
      subst hf
      exact ⟨"claude down", rfl⟩)
    rfl (Or.inl rfl)

/-- C7 (amended: `last_error` is left unchanged, not cleared): the
success branch of `route` increments the succeeding provider's attempt
and success counters and adds the response cost to its accumulated
cost, but does not clear its `last_error` field. -/
theorem c7_success_branch (st : RouterState) (q : Query) (uc : Bool)
    (p : ProviderName) (rest : List ProviderName) (r : Response)
    (hp : st.backends p q = Except.ok r)
    (hcache : uc = false ∨ cacheLookup st.cache q.hash = none) :
    ((LLMRouter.query st q (p :: rest) uc).state.metrics p).requests_total =
      (st.metrics p).requests_total + 1 ∧
    ((LLMRouter.query st q (p :: rest) uc).state.metrics p).requests_success =
      (st.metrics p).requests_success + 1 ∧
    ((LLMRouter.query st q (p :: rest) uc).state.metrics p).total_cost =
      (st.metrics p).total_cost + r.cost ∧
    ((LLMRouter.query st q (p :: rest) uc).state.metrics p).last_error =
      (st.metrics p).last_error := by
  rw [query_routeLoop st q uc p rest hcache,
    routeLoop_cons_ok q (lastOf p rest) p rest st r hp]
  rw [RouteResult.state, successUpdate_metrics_self st p q r]
  exact ⟨rfl, rfl, rfl, rfl⟩

/-- C7 witness: a success recorded on a concrete state. -/
theorem c7_success_branch_witness :
    ((LLMRouter.query stPrior qW [ProviderName.claude] false).state.metrics
        ProviderName.claude).requests_total =
      (stPrior.metrics ProviderName.claude).requests_total + 1 ∧
    ((LLMRouter.query stPrior qW [ProviderName.claude] false).state.metrics
        ProviderName.claude).requests_success =
      (stPrior.metrics ProviderName.claude).requests_success + 1 ∧
    ((LLMRouter.query stPrior qW [ProviderName.claude] false).state.metrics
        ProviderName.claude).total_cost =
      (stPrior.metrics ProviderName.claude).total_cost + respW.cost ∧
    ((LLMRouter.query stPrior qW [ProviderName.claude] false).state.metrics
        ProviderName.claude).last_error =
      (stPrior.metrics ProviderName.claude).last_error :=
  c7_success_branch stPrior qW false ProviderName.claude [] respW rfl (Or.inl rfl)

/-- C7 counterexample: the claim says the success branch clears
`last_error`; on a state carrying an earlier error it stays set. -/
theorem c7_counterexample :
    (LLMRouter.query stPrior qW [ProviderName.claude] false).result = Except.ok respW ∧
    ((LLMRouter.query stPrior qW [ProviderName.claude] false).state.metrics
        ProviderName.claude).last_error = some "earlier failure" ∧
    some "earlier failure" ≠ (none : Option String) := by
  refine ⟨rfl, ?_, by simp⟩
  rfl

/-- C1 counterexample: in `[claude, gemini, claude]` the first
non-failing candidate is gemini, but because the failing first claude
equals `providers[-1]`, the call raises after one invocation and never
reaches gemini — the claim fails on candidate lists with duplicates. -/
theorem c1_counterexample :
    stMix.backends ProviderName.claude qW = Except.error "claude down" ∧
    stMix.backends ProviderName.gemini qW = Except.ok respW ∧
    (LLMRouter.query stMix qW
        [ProviderName.claude, ProviderName.gemini, ProviderName.claude] false).result =
      Except.error (RouteError.allFailed "claude down") ∧
    (LLMRouter.query stMix qW
        [ProviderName.claude, ProviderName.gemini, ProviderName.claude] false).invoked =
      [ProviderName.claude] :=
  ⟨rfl, rfl, rfl, rfl⟩

theorem routeLoop_all_fail (q : Query) :
    ∀ (l : List ProviderName) (a : ProviderName) (st : RouterState),
      (a :: l).Nodup →
      (∀ f ∈ a :: l, ∃ e, st.backends f q = Except.error e) →
      (∃ e, st.backends (lastOf a l) q = Except.error e ∧
        (routeLoop q (lastOf a l) (a :: l) st).result =
          Except.error (RouteError.allFailed e)) ∧
      (routeLoop q (lastOf a l) (a :: l) st).invoked = a :: l ∧
      (∀ n ∈ a :: l,
        ((routeLoop q (lastOf a l) (a :: l) st).state.metrics n).requests_failed =
          (st.metrics n).requests_failed + 1) ∧
      (∀ n, n ∉ a :: l →
        (routeLoop q (lastOf a l) (a :: l) st).state.metrics n = st.metrics n) := by
  intro l
  induction l with
  | nil =>
    intro a st _ hfail
    obtain ⟨e, he⟩ := hfail a (List.mem_cons_self a [])
    simp only [lastOf]
    rw [routeLoop_cons_fail_last q a a [] st e he rfl]
    refine ⟨⟨e, he, rfl⟩, rfl, ?_, ?_⟩
    · intro n hn
      rw [List.mem_singleton] at hn
      subst hn
      rw [RouteResult.state, failUpdate_metrics_self, recordFailure_failed_count]
    · intro n hn
      have hna : n ≠ a := fun h => hn (h ▸ List.mem_cons_self a [])
      rw [RouteResult.state, failUpdate_metrics_other st a e n hna]
  | cons b l ih =>
    intro a st hnodup hfail
    obtain ⟨e0, he0⟩ := hfail a (List.mem_cons_self a (b :: l))
    have hanotin : a ∉ b :: l := (List.nodup_cons.mp hnodup).1
    have halast : a ≠ lastOf b l := fun h => hanotin (h ▸ lastOf_mem b l)
    simp only [lastOf]
    rw [routeLoop_cons_fail q (lastOf b l) a (b :: l) st e0 he0 halast]
    obtain ⟨⟨e, he, hres⟩, hinv, hmem, hfr⟩ :=
      ih b (failUpdate st a e0) (List.nodup_cons.mp hnodup).2
        (fun f hf => hfail f (List.mem_cons_of_mem a hf))
    refine ⟨⟨e, he, ?_⟩, ?_, ?_, ?_⟩
    · rw [RouteResult.result]
      exact hres
    · rw [RouteResult.invoked, hinv]
    · intro n hn
      rw [RouteResult.state]
      rcases List.mem_cons.mp hn with h | h
      · subst h
        rw [hfr n hanotin, failUpdate_metrics_self, recordFailure_failed_count]
      · have hna : n ≠ a := fun hEq => hanotin (hEq ▸ h)
        rw [hmem n h, failUpdate_metrics_other st a e0 n hna]
    · intro n hn
      have hnbl : n ∉ b :: l := fun h => hn (List.mem_cons_of_mem a h)
      have hna : n ≠ a := fun h => hn (h ▸ List.mem_cons_self a (b :: l))
      rw [RouteResult.state, hfr n hnbl, failUpdate_metrics_other st a e0 n hna]

/-- C2 (amended with a duplicate-free candidate list): on a cache miss,
when every candidate's invocation fails, `route` raises the aggregated
"all providers failed" error carrying the last candidate's error, and
each candidate's failure counter is incremented exactly once (untried
provider names keep their counters). -/
theorem c2_route_all_fail (st : RouterState) (q : Query) (uc : Bool)
    (a : ProviderName) (l : List ProviderName)
    (hnodup : (a :: l).Nodup)
    (hfail : ∀ f ∈ a :: l, ∃ e, st.backends f q = Except.error e)
    (hcache : uc = false ∨ cacheLookup st.cache q.hash = none) :
    (∃ e, st.backends (lastOf a l) q = Except.error e ∧
      (LLMRouter.query st q (a :: l) uc).result =
        Except.error (RouteError.allFailed e)) ∧
    (∀ n ∈ a :: l,
      ((LLMRouter.query st q (a :: l) uc).state.metrics n).requests_failed =
        (st.metrics n).requests_failed + 1) ∧
    ∀ n, n ∉ a :: l →
      ((LLMRouter.query st q (a :: l) uc).state.metrics n).requests_failed =
        (st.metrics n).requests_failed := by
  rw [query_routeLoop st q uc a l hcache]
  obtain ⟨⟨e, he, hres⟩, _, hmem, hfr⟩ := routeLoop_all_fail q l a st hnodup hfail
  exact ⟨⟨e, he, hres⟩, hmem, fun n hn => by rw [hfr n hn]⟩

/-- C2 witness: both candidates fail on a concrete fresh router. -/
theorem c2_route_all_fail_witness :
    (∃ e, stAllFail.backends (lastOf ProviderName.gemini [ProviderName.claude]) qW =
        Except.error e ∧
      (LLMRouter.query stAllFail qW [ProviderName.gemini, ProviderName.claude] false).result =
        Except.error (RouteError.allFailed e)) ∧
    (∀ n ∈ [ProviderName.gemini, ProviderName.claude],
      ((LLMRouter.query stAllFail qW
          [ProviderName.gemini, ProviderName.claude] false).state.metrics n).requests_failed =
        (stAllFail.metrics n).requests_failed + 1) ∧
    ∀ n, n ∉ [ProviderName.gemini, ProviderName.claude] →
      ((LLMRouter.query stAllFail qW
          [ProviderName.gemini, ProviderName.claude] false).state.metrics n).requests_failed =
        (stAllFail.metrics n).requests_failed :=
  c2_route_all_fail stAllFail qW false ProviderName.gemini [ProviderName.claude]
    (by decide)
    (by
      intro f hf
      rcases List.mem_cons.mp hf with h | hf2
      · subst h
        exact ⟨"gemini down", rfl⟩
      · rw [List.mem_singleton] at hf2
        subst hf2
        exact ⟨"claude down", rfl⟩)
    (Or.inl rfl)

/-- C2 counterexample: with the duplicated list `[claude, gemini,
claude]` every candidate fails, yet the call raises after the first
claude and gemini's failure counter is never incremented. -/
theorem c2_counterexample :
    stAllFail.backends ProviderName.gemini qW = Except.error "gemini down" ∧
    stAllFail.backends ProviderName.claude qW = Except.error "claude down" ∧
    stAllFail.backends ProviderName.openai qW = Except.error "openai down" ∧
    ProviderName.gemini ∈
      [ProviderName.claude, ProviderName.gemini, ProviderName.claude] ∧
    (stAllFail.metrics ProviderName.gemini).requests_failed = 0 ∧
    (LLMRouter.query stAllFail qW
        [ProviderName.claude, ProviderName.gemini, ProviderName.claude] false).result =
      Except.error (RouteError.allFailed "claude down") ∧
    ((LLMRouter.query stAllFail qW
        [ProviderName.claude, ProviderName.gemini, ProviderName.claude] false).state.metrics
          ProviderName.gemini).requests_failed = 0 :=
  ⟨rfl, rfl, rfl, by decide, rfl, rfl, rfl⟩

theorem query_cache_hit (st : RouterState) (q : Query) (ps : List ProviderName)
    (r : Response) (h : cacheLookup st.cache q.hash = some r) :
    LLMRouter.query st q ps true = ⟨st, [], Except.ok r⟩ := by
  simp [LLMRouter.query, h]

theorem routeLoop_lookup_of_ok (q : Query) (lastP : ProviderName) :
    ∀ (l : List ProviderName) (st : RouterState) (r : Response),
      (routeLoop q lastP l st).result = Except.ok r →
      cacheLookup (routeLoop q lastP l st).state.cache q.hash = some r := by
  intro l
  induction l with
  | nil =>
    intro st r h
    exact absurd h (by simp [routeLoop])
  | cons p rest ih =>
    intro st r h
    cases hb : st.backends p q with
    | ok resp =>
      rw [routeLoop_cons_ok q lastP p rest st resp hb] at h ⊢
      rw [RouteResult.result] at h
      rw [RouteResult.state]
      injection h with h2
      subst h2
      simp [successUpdate, cacheInsert, cacheLookup]
    | error e =>
      by_cases hp : p = lastP
      · rw [routeLoop_cons_fail_last q lastP p rest st e hb hp] at h
        exact absurd h (by simp)
      · rw [routeLoop_cons_fail q lastP p rest st e hb hp] at h ⊢
        exact ih (failUpdate st p e) r h

theorem query_lookup_of_ok (st : RouterState) (q : Query) (ps : List ProviderName)
    (r : Response) (h : (LLMRouter.query st q ps true).result = Except.ok r) :
    cacheLookup (LLMRouter.query st q ps true).state.cache q.hash = some r := by
  cases hl : cacheLookup st.cache q.hash with
  | some r0 =>
    rw [query_cache_hit st q ps r0 hl] at h ⊢
    rw [RouteResult.result] at h
    rw [RouteResult.state]
    injection h with h2
    subst h2
    exact hl
  | none =>
    have hq : LLMRouter.query st q ps true = routeCandidates st q ps := by
      simp [LLMRouter.query, hl]
    rw [hq] at h ⊢
    cases ps with
    | nil => exact absurd h (by simp [routeCandidates])
    | cons a l => exact routeLoop_lookup_of_ok q (lastOf a l) (a :: l) st r h

/-- C5: the fingerprint depends only on text, temperature and max
tokens, so two queries agreeing on those fields (whatever their system
instruction or model hint) get the same fingerprint, and after a
successful cached-enabled `route` of the first, routing the second with
caching enabled returns that same cached response, invokes no backend
and changes nothing. -/
theorem c5_fingerprint_cache_equivalence (st : RouterState) (q1 q2 : Query)
    (ps ps2 : List ProviderName) (r : Response)
    (ht : q1.text = q2.text) (htemp : q1.temperature = q2.temperature)
    (hmax : q1.max_tokens = q2.max_tokens)
    (h1 : (LLMRouter.query st q1 ps true).result = Except.ok r) :
    q1.hash = q2.hash ∧
    LLMRouter.query (LLMRouter.query st q1 ps true).state q2 ps2 true =
      ⟨(LLMRouter.query st q1 ps true).state, [], Except.ok r⟩ := by
  have hh : q1.hash = q2.hash := by
    rw [Query.hash, Query.hash, ht, htemp, hmax]
  have hlook := query_lookup_of_ok st q1 ps r h1
  rw [hh] at hlook
  exact ⟨hh, query_cache_hit _ q2 ps2 r hlook⟩

/-- C5 witness: same text/temperature/max tokens, different system
instruction, on a concrete router whose gemini backend succeeds. -/
theorem c5_fingerprint_cache_equivalence_witness :
    qW.hash = qWsys.hash ∧
    LLMRouter.query (LLMRouter.query stMix qW [ProviderName.gemini] true).state qWsys
        [ProviderName.claude] true =
      ⟨(LLMRouter.query stMix qW [ProviderName.gemini] true).state, [],
       Except.ok respW⟩ :=
  c5_fingerprint_cache_equivalence stMix qW qWsys [ProviderName.gemini]
    [ProviderName.claude] respW rfl rfl rfl rfl

theorem health_check_keys :
    ∀ (probes : List (ProviderName × Except String Bool))
      (ms : ProviderName → ProviderMetrics),
      (LLMRouter.health_check probes ms).1.map Prod.fst = probes.map Prod.fst := by
  intro probes
  induction probes with
  | nil =>
    intro ms
    rfl
  | cons pr rest ih =>
    intro ms
    obtain ⟨p, probe⟩ := pr
    simp only [LLMRouter.health_check, List.map_cons, List.cons.injEq]
    exact ⟨trivial, ih _⟩

theorem health_check_frame :
    ∀ (probes : List (ProviderName × Except String Bool))
      (ms : ProviderName → ProviderMetrics) (n : ProviderName),
      n ∉ probes.map Prod.fst → (LLMRouter.health_check probes ms).2 n = ms n := by
  intro probes
  induction probes with
  | nil =>
    intro ms n _
    rfl
  | cons pr rest ih =>
    intro ms n hn
    obtain ⟨p, probe⟩ := pr
    rw [List.map_cons] at hn
    have hnp : n ≠ p := fun h => hn (h ▸ List.mem_cons_self p (rest.map Prod.fst))
    have hnr : n ∉ rest.map Prod.fst := fun h => hn (List.mem_cons_of_mem p h)
    simp only [LLMRouter.health_check]
    rw [ih _ n hnr]
    simp [hnp]

theorem health_check_mem_false :
    ∀ (probes : List (ProviderName × Except String Bool))
      (ms : ProviderName → ProviderMetrics) (b : ProviderName) (e : String),
      (b, Except.error e) ∈ probes →
      (b, false) ∈ (LLMRouter.health_check probes ms).1 := by
  intro probes
  induction probes with
  | nil =>
    intro ms b e hb
    exact absurd hb (List.not_mem_nil _)
  | cons pr rest ih =>
    intro ms b e hb
    obtain ⟨p, probe⟩ := pr
    rcases List.mem_cons.mp hb with h | h
    · obtain ⟨h1, h2⟩ := Prod.mk.injEq .. ▸ h
      subst h1
      subst h2
      simp only [LLMRouter.health_check]
      exact List.mem_cons_self _ _
    · simp only [LLMRouter.health_check]
      exact List.mem_cons_of_mem _ (ih _ b e h)

theorem health_check_status_unhealthy :
    ∀ (probes : List (ProviderName × Except String Bool))
      (ms : ProviderName → ProviderMetrics) (b : ProviderName) (e : String),
      (probes.map Prod.fst).Nodup →
      (b, Except.error e) ∈ probes →
      ((LLMRouter.health_check probes ms).2 b).status = ProviderStatus.unhealthy := by
  intro probes
  induction probes with
  | nil =>
    intro ms b e _ hb
    exact absurd hb (List.not_mem_nil _)
  | cons pr rest ih =>
    intro ms b e hnodup hb
    obtain ⟨p, probe⟩ := pr
    rw [List.map_cons] at hnodup
    rcases List.mem_cons.mp hb with h | h
    · obtain ⟨h1, h2⟩ := Prod.mk.injEq .. ▸ h
      subst h1
      subst h2
      have hpnot : b ∉ rest.map Prod.fst := (List.nodup_cons.mp hnodup).1
      simp only [LLMRouter.health_check]
      rw [health_check_frame rest _ b hpnot]
      simp
    · simp only [LLMRouter.health_check]
      exact ih _ b e (List.nodup_cons.mp hnodup).2 h

/-- C8: a health sweep in which backend `b`'s probe raises still returns
one verdict per configured backend (in sweep order), reports `b` as
unhealthy (`false`), and sets `b`'s status to Unhealthy — one probe
exception never aborts the sweep. -/
theorem c8_health_sweep_isolation (probes : List (ProviderName × Except String Bool))
    (ms : ProviderName → ProviderMetrics) (b : ProviderName) (e : String)
    (hnodup : (probes.map Prod.fst).Nodup)
    (hb : (b, Except.error e) ∈ probes) :
    (LLMRouter.health_check probes ms).1.map Prod.fst = probes.map Prod.fst ∧
    (b, false) ∈ (LLMRouter.health_check probes ms).1 ∧
    ((LLMRouter.health_check probes ms).2 b).status = ProviderStatus.unhealthy :=
  ⟨health_check_keys probes ms,
   health_check_mem_false probes ms b e hb,
   health_check_status_unhealthy probes ms b e hnodup hb⟩

/-- C8 witness: claude's probe raises, gemini's and openai's succeed. -/
theorem c8_health_sweep_isolation_witness :
    (LLMRouter.health_check
        [(ProviderName.gemini, Except.ok true),
         (ProviderName.claude, Except.error "probe boom"),
         (ProviderName.openai, Except.ok true)] (fun _ => {})).1.map Prod.fst =
      ([(ProviderName.gemini, Except.ok true),
        (ProviderName.claude, Except.error "probe boom"),
        (ProviderName.openai, Except.ok true)] :
          List (ProviderName × Except String Bool)).map Prod.fst ∧
    (ProviderName.claude, false) ∈
      (LLMRouter.health_check
        [(ProviderName.gemini, Except.ok true),
         (ProviderName.claude, Except.error "probe boom"),
         (ProviderName.openai, Except.ok true)] (fun _ => {})).1 ∧
    ((LLMRouter.health_check
        [(ProviderName.gemini, Except.ok true),
         (ProviderName.claude, Except.error "probe boom"),
         (ProviderName.openai, Except.ok true)] (fun _ => {})).2
          ProviderName.claude).status = ProviderStatus.unhealthy :=
  c8_health_sweep_isolation _ _ ProviderName.claude "probe boom" (by decide)
    (by simp)

/-- C3: evaluation at the failing input.  The claimed invariant
`requests_total = requests_success + requests_failed` is broken by the
failure branch, which increments `requests_failed` without incrementing
`requests_total`: after one all-failing `route` call the totals are
`0`, `0`, `1`. -/
theorem c3_failing_input :
    (LLMRouter.query stAllFail qW [ProviderName.gemini] false).result =
      Except.error (RouteError.allFailed "gemini down") ∧
    ((LLMRouter.query stAllFail qW [ProviderName.gemini] false).state.metrics
        ProviderName.gemini).requests_total = 0 ∧
    ((LLMRouter.query stAllFail qW [ProviderName.gemini] false).state.metrics
        ProviderName.gemini).requests_success = 0 ∧
    ((LLMRouter.query stAllFail qW [ProviderName.gemini] false).state.metrics
        ProviderName.gemini).requests_failed = 1 ∧
    ((LLMRouter.query stAllFail qW [ProviderName.gemini] false).state.metrics
        ProviderName.gemini).requests_total ≠
      ((LLMRouter.query stAllFail qW [ProviderName.gemini] false).state.metrics
          ProviderName.gemini).requests_success +
        ((LLMRouter.query stAllFail qW [ProviderName.gemini] false).state.metrics
            ProviderName.gemini).requests_failed :=
  ⟨rfl, rfl, rfl, rfl, by decide⟩

theorem routeLoop_total_eq_success (q : Query) (lastP : ProviderName) :
    ∀ (l : List ProviderName) (st : RouterState),
      (∀ n, (st.metrics n).requests_total = (st.metrics n).requests_success) →
      ∀ n, ((routeLoop q lastP l st).state.metrics n).requests_total =
        ((routeLoop q lastP l st).state.metrics n).requests_success := by
  intro l
  induction l with
  | nil =>
    intro st h n
    exact h n
  | cons p rest ih =>
    intro st h n
    cases hb : st.backends p q with
    | ok resp =>
      rw [routeLoop_cons_ok q lastP p rest st resp hb, RouteResult.state]
      by_cases hn : n = p
      · rw [hn, successUpdate_metrics_self, recordSuccess_total_count,
          recordSuccess_success_count, h p]
      · rw [successUpdate_metrics_other st p q resp n hn]
        exact h n
    | error e =>
      have hfail : ∀ m, ((failUpdate st p e).metrics m).requests_total =
          ((failUpdate st p e).metrics m).requests_success := by
        intro m
        by_cases hm : m = p
        · rw [hm, failUpdate_metrics_self, recordFailure_total_count,
            recordFailure_success_count]
          exact h p
        · rw [failUpdate_metrics_other st p e m hm]
          exact h m
      by_cases hp : p = lastP
      · rw [routeLoop_cons_fail_last q lastP p rest st e hb hp, RouteResult.state]
        exact hfail n
      · rw [routeLoop_cons_fail q lastP p rest st e hb hp, RouteResult.state]
        exact ih (failUpdate st p e) hfail n

theorem routeCandidates_total_eq_success (st : RouterState) (q : Query)
    (ps : List ProviderName)
    (h : ∀ n, (st.metrics n).requests_total = (st.metrics n).requests_success) :
    ∀ n, ((routeCandidates st q ps).state.metrics n).requests_total =
      ((routeCandidates st q ps).state.metrics n).requests_success := by
  cases ps with
  | nil => exact h
  | cons a l => exact routeLoop_total_eq_success q (lastOf a l) (a :: l) st h

theorem query_total_eq_success (st : RouterState) (q : Query)
    (ps : List ProviderName) (uc : Bool)
    (h : ∀ n, (st.metrics n).requests_total = (st.metrics n).requests_success) :
    ∀ n, ((LLMRouter.query st q ps uc).state.metrics n).requests_total =
      ((LLMRouter.query st q ps uc).state.metrics n).requests_success := by
  cases uc with
  | false => exact routeCandidates_total_eq_success st q ps h
  | true =>
    cases hl : cacheLookup st.cache q.hash with
    | some r =>
      rw [query_cache_hit st q ps r hl, RouteResult.state]
      exact h
    | none =>
      have hq : LLMRouter.query st q ps true = routeCandidates st q ps := by
        simp [LLMRouter.query, hl]
      rw [hq]
      exact routeCandidates_total_eq_success st q ps h

/-- C10 (implicit): from a freshly constructed router, after any
sequence of `route` calls every provider's `requests_total` equals its
`requests_success` (the failure branch never touches `requests_total`),
so `success_rate` is identically `1` and, while the status is Healthy,
`availability` is `1` regardless of how many routing failures were
recorded. -/
theorem c10_total_matches_success (st : RouterState) (h : Reachable st)
    (n : ProviderName) :
    (st.metrics n).requests_total = (st.metrics n).requests_success ∧
    (st.metrics n).success_rate = 1 ∧
    ((st.metrics n).status = ProviderStatus.healthy →
      (st.metrics n).availability = 1) := by
  have key : ∀ m, (st.metrics m).requests_total = (st.metrics m).requests_success := by
    induction h with
    | init backends => intro m; rfl
    | step st0 q ps uc _ ih => exact query_total_eq_success st0 q ps uc ih
  have hsr : (st.metrics n).success_rate = 1 := by
    rw [ProviderMetrics.success_rate]
    by_cases h0 : (st.metrics n).requests_total = 0
    · rw [if_pos h0]
    · rw [if_neg h0, ← key n]
      have hz : ((st.metrics n).requests_total : ℚ) ≠ 0 := by
        exact_mod_cast h0
      exact div_self hz
  refine ⟨key n, hsr, ?_⟩
  intro hstat
  rw [ProviderMetrics.availability, hstat]
  simp [hsr]

/-- C10 witness: the reachable state after one all-failing `route` call
on a fresh router, where a failure has been recorded. -/
theorem c10_total_matches_success_witness :
    (((LLMRouter.query stAllFail qW [ProviderName.gemini] false).state.metrics
        ProviderName.gemini).requests_total =
      ((LLMRouter.query stAllFail qW [ProviderName.gemini] false).state.metrics
          ProviderName.gemini).requests_success) ∧
    ((LLMRouter.query stAllFail qW [ProviderName.gemini] false).state.metrics
        ProviderName.gemini).success_rate = 1 ∧
    (((LLMRouter.query stAllFail qW [ProviderName.gemini] false).state.metrics
        ProviderName.gemini).status = ProviderStatus.healthy →
      ((LLMRouter.query stAllFail qW [ProviderName.gemini] false).state.metrics
          ProviderName.gemini).availability = 1) :=
  c10_total_matches_success _
    (Reachable.step stAllFail qW [ProviderName.gemini] false (Reachable.init bkAllFail))
    ProviderName.gemini
